import Mathlib

/-!
Verification development for the `structura` repository.

The definitions below are a shallow embedding of the Go source:
  * `api/deepseek.go` — the DeepSeek client: `enforceRateLimit`,
    `makeAPIRequest` (retry loop with classification and backoff) and
    `GenerateDocumentation` (prompting, error mapping, response decoding);
  * `tui/tui.go` — the processing pipeline: `Update` message handling
    (`fileProcessedMsg` / `fileErrorMsg`) and `continueProcessing`;
  * `filehandler/filehandler.go` — `TraverseDirectory` over a filesystem tree.

External collaborators (the HTTP transport, the OS filesystem and path
functions, the JSON decoder, the ignore-pattern matcher) are parameters of
the embedding: the Go code consumes them through narrow interfaces and the
properties proved here hold for every instantiation.
-/

namespace Structura

/-! ## Configuration (`config/config.go` plus the retry/rate fields read by
`api/deepseek.go`).  Durations are modelled as integers (Go `time.Duration`
is an `int64` nanosecond count); `MaxRetries` is a natural number, matching
the loop `for attempt := 0; attempt < MaxRetries; attempt++` which performs
no iteration for a non-positive bound. -/

structure GoConfig where
  DeepseekAPIKey : String
  APIEndpoint : String
  APIRateLimit : Int
  MaxRetries : Nat
deriving Repr, DecidableEq

/-! ## `APIError` (`api/deepseek.go` lines 60–72). -/

structure APIError where
  StatusCode : Nat
  Message : String
  IsRateLimit : Bool
  IsInvalidKey : Bool
  IsNetworkError : Bool
  RawResponse : String
deriving Repr, DecidableEq

/-- Outcome of one HTTP dispatch as seen by `makeAPIRequest`: either the
transport returned an error (`err != nil` in Go) or a response with a
status code and a body arrived. -/
inductive HTTPOutcome where
  | netError (msg : String)
  | response (status : Nat) (body : String)
deriving Repr, DecidableEq

/-- Observable events of one `makeAPIRequest` run: the dispatch of attempt
`i` (preceded by `enforceRateLimit`), the elevated rate-limit sleep
`(attempt+1) * APIRateLimit` of the 429 branch, and the exponential backoff
sleep `2^attempt` seconds of the network-failure path. -/
inductive APIEvent where
  | dispatch (attempt : Nat)
  | sleepRateLimit (d : Int)
  | sleepBackoff (d : Int)
deriving Repr, DecidableEq

/-- Result of `makeAPIRequest`: a 200 response body, a classified
`*APIError`, or the `fmt.Errorf("API request failed after %d attempts")`
fallthrough reached when the loop body never ran. -/
inductive APIResult where
  | ok (body : String)
  | apiErr (e : APIError)
  | exhaustedMsg (n : Nat)
deriving Repr, DecidableEq

/-- The network-failure classification built in the `else` branch of
`makeAPIRequest` (`api/deepseek.go` lines 130–136). -/
def networkAPIError (m : String) : APIError :=
  { StatusCode := 0
    Message := "API request failed: " ++ m
    IsRateLimit := false
    IsInvalidKey := false
    IsNetworkError := true
    RawResponse := "" }

/-- The 429 classification built in `case 429` of `makeAPIRequest`
(`api/deepseek.go` lines 119–125). -/
def rateLimitAPIError (body : String) : APIError :=
  { StatusCode := 429
    Message := "API rate limit exceeded, will retry"
    IsRateLimit := true
    IsInvalidKey := false
    IsNetworkError := false
    RawResponse := body }

/-- The retry loop of `makeAPIRequest` (`api/deepseek.go` lines 89–148).
`a` is the current value of `attempt`, `fuel` the number of remaining
iterations (`MaxRetries - attempt`), `lastErr` the `lastErr` variable.
`outs i` is the outcome of the dispatch performed by attempt `i`.  Returns
the function result together with the trace of dispatches and sleeps. -/
def retryLoop (cfg : GoConfig) (outs : Nat → HTTPOutcome) :
    Nat → Nat → Option APIError → APIResult × List APIEvent
  | _, 0, lastErr =>
    (match lastErr with
     | some e => APIResult.apiErr e
     | none => APIResult.exhaustedMsg cfg.MaxRetries, [])
  | a, fuel+1, _lastErr =>
    match outs a with
    | HTTPOutcome.response s body =>
      if s = 200 then (APIResult.ok body, [APIEvent.dispatch a])
      else if s = 401 then
        (APIResult.apiErr
          { StatusCode := 401
            Message := "API authentication failed: Invalid API key"
            IsRateLimit := false
            IsInvalidKey := true
            IsNetworkError := false
            RawResponse := body }, [APIEvent.dispatch a])
      else if s = 403 then
        (APIResult.apiErr
          { StatusCode := 403
            Message := "API access forbidden: API key may be invalid or lacks necessary permissions"
            IsRateLimit := false
            IsInvalidKey := true
            IsNetworkError := false
            RawResponse := body }, [APIEvent.dispatch a])
      else if s = 429 then
        -- `continue`: the rate-limit sleep replaces the exponential backoff
        let r := retryLoop cfg outs (a+1) fuel (some (rateLimitAPIError body))
        (r.1, APIEvent.dispatch a ::
          APIEvent.sleepRateLimit (((a : Int) + 1) * cfg.APIRateLimit) :: r.2)
      else
        (APIResult.apiErr
          { StatusCode := s
            Message := "API request failed with status: " ++ toString s ++ ", body: " ++ body
            IsRateLimit := false
            IsInvalidKey := false
            IsNetworkError := false
            RawResponse := body }, [APIEvent.dispatch a])
    | HTTPOutcome.netError m =>
      let r := retryLoop cfg outs (a+1) fuel (some (networkAPIError m))
      (r.1, APIEvent.dispatch a ::
        (if a < cfg.MaxRetries - 1 then APIEvent.sleepBackoff ((2 : Int) ^ a) :: r.2 else r.2))

/-- Function `makeAPIRequest` (`api/deepseek.go` lines 85–149): run the retry loop
from attempt 0 with the full retry budget and no recorded error. -/
def makeAPIRequest (cfg : GoConfig) (outs : Nat → HTTPOutcome) :
    APIResult × List APIEvent :=
  retryLoop cfg outs 0 cfg.MaxRetries none

def isDispatchEv : APIEvent → Bool
  | APIEvent.dispatch _ => true
  | _ => false

/-- Number of dispatches (HTTP POSTs) in a trace. -/
def dispatchCount (evs : List APIEvent) : Nat :=
  (evs.filter isDispatchEv).length

/-- An outcome that the loop retries: a network-level failure or an
HTTP 429 response; every other outcome returns from inside the loop. -/
def retryableOutcome : HTTPOutcome → Bool
  | HTTPOutcome.netError _ => true
  | HTTPOutcome.response s _ => s = 429

/-- Classification applied to the final retryable outcome: the value held
in `lastErr` when the loop exhausts its budget. -/
def lastRetryClassify : HTTPOutcome → APIError
  | HTTPOutcome.netError m => networkAPIError m
  | HTTPOutcome.response _ b => rateLimitAPIError b

/-! ## Rate limiting (`api/deepseek.go` lines 74–82).

Idealized timing model: `now` is the current clock, `lastAPICall` the
client's recorded timestamp.  `enforceRateLimit` sleeps for the remainder
of the interval when the elapsed time is too small and then records the
current time; the dispatch is issued at the resulting instant. -/

structure RLState where
  now : Int
  lastAPICall : Int
deriving Repr, DecidableEq

/-- Function `enforceRateLimit`: if `elapsed < APIRateLimit`, sleep the remainder
(advancing the clock to `lastAPICall + rate`), then set
`lastAPICall = time.Now()`. -/
def enforceRateLimit (rate : Int) (s : RLState) : RLState :=
  let now' := if s.now - s.lastAPICall < rate then s.lastAPICall + rate else s.now
  { now := now', lastAPICall := now' }

/-- The client state produced by `NewDeepseekClient`
(`api/deepseek.go` line 56): `lastAPICall` is initialized to
`time.Now().Add(-APIRateLimit)` so the first call proceeds immediately. -/
def newClientState (rate : Int) (t0 : Int) : RLState :=
  { now := t0, lastAPICall := t0 - rate }

/-- Dispatch timestamps of a sequence of requests: before each request an
arbitrary non-negative amount `d` of time passes (request building,
response handling, retry backoff sleeps, work on other files), then
`enforceRateLimit` runs and the request leaves at the updated clock. -/
def dispatchTimes (rate : Int) : RLState → List Int → List Int
  | _, [] => []
  | s, d :: ds =>
    let s1 := enforceRateLimit rate { now := s.now + d, lastAPICall := s.lastAPICall }
    s1.now :: dispatchTimes rate s1 ds

/-! ## File records (`filehandler/filehandler.go` lines 25–31). -/

structure FileInfo where
  Path : String
  Content : String
  Size : Int
  IsDir : Bool
deriving Repr, DecidableEq

/-! ## The processing pipeline (`tui/tui.go`).

Messages delivered to `Update` by a processing step (`tui/tui.go`
lines 444–450): every step of `continueProcessing` ends in either a
`fileProcessedMsg` (success or dedupe skip) or a `fileErrorMsg`. -/

inductive PMsg where
  | fileProcessed (s : String)
  | fileError (s : String)
deriving Repr, DecidableEq

/-- The `State` enumeration of `tui/tui.go` lines 70–80. -/
inductive TuiState where
  | stInit
  | enterAPIKey
  | selectProjectType
  | enterInputDir
  | enterOutputDir
  | processing
  | done
deriving Repr, DecidableEq

/-- The fields of the TUI `Model` touched by the processing loop. -/
structure TuiModel where
  files : List FileInfo
  processedFiles : Nat
  errors : List String
  currentFile : String
  state : TuiState
deriving Repr, DecidableEq

/-- The `fileProcessedMsg` / `fileErrorMsg` cases of `Update`
(`tui/tui.go` lines 251–287): increment `processedFiles` (appending to
`errors` first in the error case), and when `processedFiles >= len(files)`
enter `StateDone` (the structure-documentation side effect is a filesystem
write with no influence on the model fields embedded here). -/
def updateStep (m : TuiModel) : PMsg → TuiModel
  | PMsg.fileProcessed s =>
    let m1 := { m with processedFiles := m.processedFiles + 1, currentFile := s }
    if m1.files.length ≤ m1.processedFiles then { m1 with state := TuiState.done } else m1
  | PMsg.fileError s =>
    let m1 := { m with errors := m.errors ++ [s], processedFiles := m.processedFiles + 1 }
    if m1.files.length ≤ m1.processedFiles then { m1 with state := TuiState.done } else m1

/-- A run of `Update` over a sequence of delivered step messages. -/
def runMsgs (m : TuiModel) (msgs : List PMsg) : TuiModel :=
  msgs.foldl updateStep m

/-- External collaborators of one `continueProcessing` step: the OS path
functions (`filepath.Rel`, `filepath.Dir`, `filepath.Base`,
`filepath.Join`), `os.MkdirAll`, `os.Stat` (existence check),
`os.WriteFile`, and the documentation client
(`apiClient.GenerateDocumentation`).  `mkdirAll` and `writeFile` return
`some errMsg` on failure and `none` on success; `statExists p` is true
when `os.Stat p` succeeds. -/
structure StepEnv where
  outputDir : String
  rel : String → Except String String
  dirOf : String → String
  baseOf : String → String
  join : String → String → String
  mkdirAll : String → Option String
  statExists : String → Bool
  generateDoc : FileInfo → Except String String
  writeFile : String → String → Option String

/-- The per-file body of `continueProcessing` (`tui/tui.go` lines
398–432), for a non-directory file: compute the relative path, create the
mirrored output directory, dedupe-check the destination, and only then
invoke `GenerateDocumentation` and write the artifact.  Returns the
message the step ends in, the number of `GenerateDocumentation`
invocations (0 or 1), and the path written (when a write succeeded). -/
def stepOn (env : StepEnv) (f : FileInfo) : PMsg × Nat × Option String :=
  match env.rel f.Path with
  | Except.error e =>
    (PMsg.fileError ("Failed to get relative path for " ++ f.Path ++ ": " ++ e), 0, none)
  | Except.ok relPath =>
    let outputPath := env.join env.outputDir (env.dirOf relPath)
    match env.mkdirAll outputPath with
    | some e =>
      (PMsg.fileError ("Failed to create directory " ++ outputPath ++ ": " ++ e), 0, none)
    | none =>
      let outputFile := env.join outputPath (env.baseOf f.Path ++ ".md")
      if env.statExists outputFile then
        (PMsg.fileProcessed (f.Path ++ " (already documented, skipped)"), 0, none)
      else
        match env.generateDoc f with
        | Except.error e =>
          (PMsg.fileError ("Failed to generate documentation for " ++ f.Path ++ ": " ++ e), 1, none)
        | Except.ok doc =>
          match env.writeFile outputFile doc with
          | some e =>
            (PMsg.fileError ("Failed to write documentation to " ++ outputFile ++ ": " ++ e), 1, none)
          | none => (PMsg.fileProcessed f.Path, 1, some outputFile)

/-- The scanning loop of `continueProcessing` (`tui/tui.go` lines
383–441): iterate over `files` with index `i`; indices below the closure's
`processedFiles` copy (`lp`) are skipped; a directory entry increments the
local copy and continues; the first remaining file is handled by `stepOn`.
Returns `none` when the loop falls through (no message is produced). -/
def procLoop (env : StepEnv) : List FileInfo → Nat → Nat → Option (PMsg × Nat × Option String)
  | [], _, _ => none
  | f :: rest, i, lp =>
    if i < lp then procLoop env rest (i+1) lp
    else if f.IsDir then procLoop env rest (i+1) (lp+1)
    else some (stepOn env f)

/-- One scheduled step: `continueProcessing` is invoked with the model's
current `processedFiles` as the cursor, scanning from index 0. -/
def continueProcessingStep (env : StepEnv) (m : TuiModel) : Option (PMsg × Nat × Option String) :=
  procLoop env m.files 0 m.processedFiles

/-- Record a successful artifact write in the filesystem abstraction: the
written path now exists for later `os.Stat` checks. -/
def noteWrite (env : StepEnv) : Option String → StepEnv
  | none => env
  | some p => { env with statExists := fun q => q = p || env.statExists q }

/-- Run `k` scheduled steps of the pipeline: each step runs
`continueProcessing`, delivers its message to `Update`, and accumulates
the number of `GenerateDocumentation` invocations.  A step producing no
message leaves the model unchanged. -/
def runSteps (env : StepEnv) : Nat → TuiModel → TuiModel × Nat
  | 0, m => (m, 0)
  | k+1, m =>
    match continueProcessingStep env m with
    | none => (m, 0)
    | some (msg, calls, w) =>
      let r := runSteps (noteWrite env w) k (updateStep m msg)
      (r.1, calls + r.2)

/-! ## Directory traversal (`filehandler/filehandler.go` lines 116–157).

The filesystem is a tree; `filepath.Walk` visits a node (root first), asks
the callback, and recurses into children unless the callback returned
`filepath.SkipDir`.  The ignore policy (`ShouldIgnore`, built on the
ignore-pattern catalogue and `filepath.Match`) is the external parameter
`ig`. -/

inductive FSNode where
  | file (name : String) (size : Int) (readOk : Bool) (content : String)
  | dir (name : String) (children : List FSNode)
deriving Repr

def nodeName : FSNode → String
  | FSNode.file n _ _ _ => n
  | FSNode.dir n _ => n

mutual

/-- The `filepath.Walk` callback of `TraverseDirectory` applied to the node
at path `p`: ignored entries are skipped (`SkipDir` prunes a directory's
subtree), directory entries are never appended, and a file's content is
read only below the 5 MiB ceiling (a failed read leaves `Content` empty). -/
def walkVisit (ig : String → Bool) : FSNode → String → List FileInfo
  | FSNode.file _ size readOk content, fp =>
    if ig fp then []
    else [{ Path := fp
            Content := if size < 5 * 1024 * 1024 then (if readOk then content else "") else ""
            Size := size
            IsDir := false }]
  | FSNode.dir _ children, dp =>
    if ig dp then []
    else walkChildren ig children dp

/-- Walk the children of the directory at path `dp` in order. -/
def walkChildren (ig : String → Bool) : List FSNode → String → List FileInfo
  | [], _ => []
  | c :: cs, dp => walkVisit ig c (dp ++ "/" ++ nodeName c) ++ walkChildren ig cs dp

end

/-- Function `TraverseDirectory`: `filepath.Walk(rootDir, ...)` visits `rootDir`
itself first and then the tree below it. -/
def TraverseDirectory (ig : String → Bool) (rootDir : String) (root : FSNode) : List FileInfo :=
  walkVisit ig root rootDir

/-- The `continueProcessing` scanning loop with the directory-marker branch
removed, following the spec claim that the branch is unreachable for lists
produced by `TraverseDirectory`; compared against `procLoop`. -/
def procLoopDirBranchRemoved (env : StepEnv) :
    List FileInfo → Nat → Nat → Option (PMsg × Nat × Option String)
  | [], _, _ => none
  | f :: rest, i, lp =>
    if i < lp then procLoopDirBranchRemoved env rest (i+1) lp
    else some (stepOn env f)

/-! ## `GenerateDocumentation` (`api/deepseek.go` lines 151–220).

The JSON decoder (`json.Unmarshal`) is the external parameter
`unmarshal`; the HTTP transport is `outs`, as for `makeAPIRequest`. -/

structure DSMessage where
  Role : String
  Content : String
deriving Repr, DecidableEq

structure DSChoice where
  Index : Int
  Message : DSMessage
deriving Repr, DecidableEq

/-- Structure `DeepseekResponse` (`api/deepseek.go` lines 33–45). -/
structure DeepseekResponse where
  ID : String
  Object : String
  Created : Int
  Model : String
  Choices : List DSChoice
deriving Repr, DecidableEq

/-- The distinct failures `GenerateDocumentation` can return:
the empty-key guard, the three user-friendly `APIError` rewrites, an
unclassified `APIError` returned as-is, the post-loop exhaustion error,
a JSON decoding failure, and the empty-choices error. -/
inductive GenError where
  | keyNotSet
  | invalidKeyFriendly
  | rateLimitFriendly
  | networkFriendly
  | otherAPIError (e : APIError)
  | exhausted (n : Nat)
  | parseFailure (m : String)
  | noChoices
deriving Repr, DecidableEq

/-- Function `GenerateDocumentation`: guard the empty API key, run
`makeAPIRequest`, rewrite classified errors into user-facing messages,
decode the body and extract the first choice.  The second component is the
number of dispatches performed (zero iff `makeAPIRequest` never ran a
request). -/
def GenerateDocumentation (cfg : GoConfig)
    (unmarshal : String → Except String DeepseekResponse)
    (outs : Nat → HTTPOutcome) (_file : FileInfo) : Except GenError String × Nat :=
  if cfg.DeepseekAPIKey = "" then (Except.error GenError.keyNotSet, 0)
  else
    let r := makeAPIRequest cfg outs
    let disp := dispatchCount r.2
    match r.1 with
    | APIResult.apiErr e =>
      if e.IsInvalidKey then (Except.error GenError.invalidKeyFriendly, disp)
      else if e.IsRateLimit then (Except.error GenError.rateLimitFriendly, disp)
      else if e.IsNetworkError then (Except.error GenError.networkFriendly, disp)
      else (Except.error (GenError.otherAPIError e), disp)
    | APIResult.exhaustedMsg n => (Except.error (GenError.exhausted n), disp)
    | APIResult.ok body =>
      match unmarshal body with
      | Except.error m => (Except.error (GenError.parseFailure m), disp)
      | Except.ok resp =>
        match resp.Choices with
        | [] => (Except.error GenError.noChoices, disp)
        | c :: _ => (Except.ok c.Message.Content, disp)

/-! ## Theorems -/

/-- After `enforceRateLimit` the recorded timestamp equals the clock. -/
theorem enforceRateLimit_last_eq_now (rate : Int) (s : RLState) :
    (enforceRateLimit rate s).lastAPICall = (enforceRateLimit rate s).now := rfl

/-- Function `enforceRateLimit` never lets the clock sit closer than `rate` after
the previously recorded call. -/
theorem enforceRateLimit_ge (rate : Int) (s : RLState) :
    s.lastAPICall + rate ≤ (enforceRateLimit rate s).now := by
  unfold enforceRateLimit
  dsimp only
  split <;> omega

/-- Every dispatch time is at least `lastAPICall + rate`, and consecutive
dispatch times are at least `rate` apart. -/
theorem dispatchTimes_spec (rate : Int) (hr : 0 ≤ rate) :
    ∀ (delays : List Int) (s : RLState),
      (∀ t ∈ dispatchTimes rate s delays, s.lastAPICall + rate ≤ t) ∧
      List.Chain' (fun t1 t2 => t1 + rate ≤ t2) (dispatchTimes rate s delays) := by
  intro delays
  induction delays with
  | nil => intro s; simp [dispatchTimes]
  | cons d ds ih =>
    intro s
    rw [dispatchTimes]
    have h1 : s.lastAPICall + rate ≤
        (enforceRateLimit rate { now := s.now + d, lastAPICall := s.lastAPICall }).now :=
      enforceRateLimit_ge rate _
    obtain ⟨ihAll, ihChain⟩ :=
      ih (enforceRateLimit rate { now := s.now + d, lastAPICall := s.lastAPICall })
    have hlast : (enforceRateLimit rate { now := s.now + d, lastAPICall := s.lastAPICall }).lastAPICall =
        (enforceRateLimit rate { now := s.now + d, lastAPICall := s.lastAPICall }).now :=
      enforceRateLimit_last_eq_now rate _
    constructor
    · intro t ht
      rcases List.mem_cons.mp ht with h | h
      · omega
      · have := ihAll t h
        omega
    · refine List.chain'_cons'.mpr ⟨?_, ihChain⟩
      intro h hh
      have hm := List.mem_of_mem_head? hh
      have := ihAll h hm
      omega

/-- C1: every dispatch of `makeAPIRequest` is preceded by
`enforceRateLimit`, which sleeps for the remainder of `APIRateLimit` when
too little time has elapsed since the recorded `lastAPICall` and records
the new timestamp before the request leaves.  Hence for any sequence of
dispatches of one client (across files and retry attempts, with arbitrary
non-negative time passing in between), consecutive dispatch times are at
least `APIRateLimit` apart, starting from the `NewDeepseekClient` state. -/
theorem c1_rate_limit_invariant (rate t0 : Int) (delays : List Int) (hr : 0 ≤ rate) :
    List.Chain' (fun t1 t2 => t1 + rate ≤ t2)
      (dispatchTimes rate (newClientState rate t0) delays) :=
  (dispatchTimes_spec rate hr delays (newClientState rate t0)).2

/-- Witness for C1 at interval 2 and three dispatches. -/
theorem c1_rate_limit_invariant_witness :
    (0 : Int) ≤ 2 ∧
      List.Chain' (fun t1 t2 => t1 + 2 ≤ t2)
        (dispatchTimes 2 (newClientState 2 0) [0, 1, 5]) :=
  ⟨by decide, c1_rate_limit_invariant 2 0 [0, 1, 5] (by decide)⟩

/-! ### Step lemmas for the retry loop -/

theorem retryLoop_zero (cfg : GoConfig) (outs : Nat → HTTPOutcome) (a : Nat)
    (le : Option APIError) :
    retryLoop cfg outs a 0 le =
      (match le with
       | some e => APIResult.apiErr e
       | none => APIResult.exhaustedMsg cfg.MaxRetries, []) := rfl

theorem retryLoop_success (cfg : GoConfig) (outs : Nat → HTTPOutcome) (a n : Nat)
    (le : Option APIError) (b : String) (h : outs a = HTTPOutcome.response 200 b) :
    retryLoop cfg outs a (n+1) le = (APIResult.ok b, [APIEvent.dispatch a]) := by
  simp [retryLoop, h]

theorem retryLoop_401 (cfg : GoConfig) (outs : Nat → HTTPOutcome) (a n : Nat)
    (le : Option APIError) (b : String) (h : outs a = HTTPOutcome.response 401 b) :
    retryLoop cfg outs a (n+1) le =
      (APIResult.apiErr
        { StatusCode := 401
          Message := "API authentication failed: Invalid API key"
          IsRateLimit := false
          IsInvalidKey := true
          IsNetworkError := false
          RawResponse := b }, [APIEvent.dispatch a]) := by
  simp [retryLoop, h]

theorem retryLoop_403 (cfg : GoConfig) (outs : Nat → HTTPOutcome) (a n : Nat)
    (le : Option APIError) (b : String) (h : outs a = HTTPOutcome.response 403 b) :
    retryLoop cfg outs a (n+1) le =
      (APIResult.apiErr
        { StatusCode := 403
          Message := "API access forbidden: API key may be invalid or lacks necessary permissions"
          IsRateLimit := false
          IsInvalidKey := true
          IsNetworkError := false
          RawResponse := b }, [APIEvent.dispatch a]) := by
  simp [retryLoop, h]

theorem retryLoop_429 (cfg : GoConfig) (outs : Nat → HTTPOutcome) (a n : Nat)
    (le : Option APIError) (b : String) (h : outs a = HTTPOutcome.response 429 b) :
    retryLoop cfg outs a (n+1) le =
      ((retryLoop cfg outs (a+1) n (some (rateLimitAPIError b))).1,
        APIEvent.dispatch a ::
          APIEvent.sleepRateLimit (((a : Int) + 1) * cfg.APIRateLimit) ::
          (retryLoop cfg outs (a+1) n (some (rateLimitAPIError b))).2) := by
  simp [retryLoop, h]

theorem retryLoop_other (cfg : GoConfig) (outs : Nat → HTTPOutcome) (a n : Nat)
    (le : Option APIError) (s : Nat) (b : String)
    (h : outs a = HTTPOutcome.response s b)
    (h200 : s ≠ 200) (h401 : s ≠ 401) (h403 : s ≠ 403) (h429 : s ≠ 429) :
    retryLoop cfg outs a (n+1) le =
      (APIResult.apiErr
        { StatusCode := s
          Message := "API request failed with status: " ++ toString s ++ ", body: " ++ b
          IsRateLimit := false
          IsInvalidKey := false
          IsNetworkError := false
          RawResponse := b }, [APIEvent.dispatch a]) := by
  simp [retryLoop, h, h200, h401, h403, h429]

theorem retryLoop_netErr (cfg : GoConfig) (outs : Nat → HTTPOutcome) (a n : Nat)
    (le : Option APIError) (m : String) (h : outs a = HTTPOutcome.netError m) :
    retryLoop cfg outs a (n+1) le =
      ((retryLoop cfg outs (a+1) n (some (networkAPIError m))).1,
        APIEvent.dispatch a ::
          (if a < cfg.MaxRetries - 1 then
            APIEvent.sleepBackoff ((2 : Int) ^ a) ::
              (retryLoop cfg outs (a+1) n (some (networkAPIError m))).2
          else (retryLoop cfg outs (a+1) n (some (networkAPIError m))).2)) := by
  simp [retryLoop, h]

theorem dispatchCount_nil : dispatchCount [] = 0 := rfl

theorem dispatchCount_cons_dispatch (a : Nat) (evs : List APIEvent) :
    dispatchCount (APIEvent.dispatch a :: evs) = dispatchCount evs + 1 := by
  simp [dispatchCount, List.filter, isDispatchEv]

theorem dispatchCount_cons_sleepRL (d : Int) (evs : List APIEvent) :
    dispatchCount (APIEvent.sleepRateLimit d :: evs) = dispatchCount evs := by
  simp [dispatchCount, List.filter, isDispatchEv]

theorem dispatchCount_cons_sleepB (d : Int) (evs : List APIEvent) :
    dispatchCount (APIEvent.sleepBackoff d :: evs) = dispatchCount evs := by
  simp [dispatchCount, List.filter, isDispatchEv]

/-- Any dispatch in the trace of the loop started at attempt `a` has index
at least `a`, and every attempt strictly before it had a retryable
outcome: only network failures and 429s lead to a further attempt. -/
theorem retryLoop_dispatch_bound (cfg : GoConfig) (outs : Nat → HTTPOutcome) :
    ∀ (fuel a : Nat) (le : Option APIError) (j : Nat),
      APIEvent.dispatch j ∈ (retryLoop cfg outs a fuel le).2 →
      a ≤ j ∧ (∀ i, a ≤ i → i < j → retryableOutcome (outs i) = true) := by
  intro fuel
  induction fuel with
  | zero =>
    intro a le j h
    rw [retryLoop_zero] at h
    simp at h
  | succ n ih =>
    intro a le j h
    cases houts : outs a with
    | netError m =>
      rw [retryLoop_netErr cfg outs a n le m houts] at h
      rcases List.mem_cons.mp h with hq | hq
      · have hja : j = a := by injection hq
        subst hja
        exact ⟨Nat.le_refl j, fun i h1 h2 => absurd h2 (by omega)⟩
      · have hq2 : APIEvent.dispatch j ∈
            (retryLoop cfg outs (a+1) n (some (networkAPIError m))).2 := by
          by_cases hb : a < cfg.MaxRetries - 1
          · rw [if_pos hb] at hq
            rcases List.mem_cons.mp hq with hq3 | hq3
            · exact absurd hq3 (by simp)
            · exact hq3
          · rwa [if_neg hb] at hq
        obtain ⟨h1, h2⟩ := ih (a+1) (some (networkAPIError m)) j hq2
        refine ⟨by omega, fun i hi1 hi2 => ?_⟩
        rcases Nat.eq_or_lt_of_le hi1 with hia | hia
        · rw [← hia, houts]; rfl
        · exact h2 i hia hi2
    | response s b =>
      by_cases h200 : s = 200
      · subst h200
        rw [retryLoop_success cfg outs a n le b houts] at h
        simp at h
        exact ⟨by omega, fun i h1 h2 => absurd h2 (by omega)⟩
      by_cases h401 : s = 401
      · subst h401
        rw [retryLoop_401 cfg outs a n le b houts] at h
        simp at h
        exact ⟨by omega, fun i h1 h2 => absurd h2 (by omega)⟩
      by_cases h403 : s = 403
      · subst h403
        rw [retryLoop_403 cfg outs a n le b houts] at h
        simp at h
        exact ⟨by omega, fun i h1 h2 => absurd h2 (by omega)⟩
      by_cases h429 : s = 429
      · subst h429
        rw [retryLoop_429 cfg outs a n le b houts] at h
        rcases List.mem_cons.mp h with hq | hq
        · have hja : j = a := by injection hq
          subst hja
          exact ⟨Nat.le_refl j, fun i h1 h2 => absurd h2 (by omega)⟩
        · rcases List.mem_cons.mp hq with hq2 | hq2
          · exact absurd hq2 (by simp)
          · obtain ⟨h1, h2⟩ := ih (a+1) (some (rateLimitAPIError b)) j hq2
            refine ⟨by omega, fun i hi1 hi2 => ?_⟩
            rcases Nat.eq_or_lt_of_le hi1 with hia | hia
            · rw [← hia, houts]; rfl
            · exact h2 i hia hi2
      · rw [retryLoop_other cfg outs a n le s b houts h200 h401 h403 h429] at h
        simp at h
        exact ⟨by omega, fun i h1 h2 => absurd h2 (by omega)⟩

/-- The loop never performs more dispatches than its remaining budget. -/
theorem retryLoop_dispatchCount_le (cfg : GoConfig) (outs : Nat → HTTPOutcome) :
    ∀ (fuel a : Nat) (le : Option APIError),
      dispatchCount (retryLoop cfg outs a fuel le).2 ≤ fuel := by
  intro fuel
  induction fuel with
  | zero =>
    intro a le
    rw [retryLoop_zero]
    exact Nat.le_refl 0
  | succ n ih =>
    intro a le
    cases houts : outs a with
    | netError m =>
      rw [retryLoop_netErr cfg outs a n le m houts]
      by_cases hb : a < cfg.MaxRetries - 1
      · rw [if_pos hb]
        simp only [dispatchCount_cons_dispatch, dispatchCount_cons_sleepB]
        exact Nat.succ_le_succ (ih (a+1) _)
      · rw [if_neg hb]
        simp only [dispatchCount_cons_dispatch]
        exact Nat.succ_le_succ (ih (a+1) _)
    | response s b =>
      by_cases h200 : s = 200
      · subst h200
        rw [retryLoop_success cfg outs a n le b houts]
        simp [dispatchCount_cons_dispatch, dispatchCount_nil]
      by_cases h401 : s = 401
      · subst h401
        rw [retryLoop_401 cfg outs a n le b houts]
        simp [dispatchCount_cons_dispatch, dispatchCount_nil]
      by_cases h403 : s = 403
      · subst h403
        rw [retryLoop_403 cfg outs a n le b houts]
        simp [dispatchCount_cons_dispatch, dispatchCount_nil]
      by_cases h429 : s = 429
      · subst h429
        rw [retryLoop_429 cfg outs a n le b houts]
        simp only [dispatchCount_cons_dispatch, dispatchCount_cons_sleepRL]
        exact Nat.succ_le_succ (ih (a+1) _)
      · rw [retryLoop_other cfg outs a n le s b houts h200 h401 h403 h429]
        simp [dispatchCount_cons_dispatch, dispatchCount_nil]

/-- When every attempt in the remaining budget has a retryable outcome,
the loop performs exactly that many dispatches and returns the
classification of the final outcome. -/
theorem retryLoop_allRetryable (cfg : GoConfig) (outs : Nat → HTTPOutcome) :
    ∀ (n a : Nat) (le : Option APIError),
      (∀ i, a ≤ i → i < a + (n+1) → retryableOutcome (outs i) = true) →
      (retryLoop cfg outs a (n+1) le).1 =
        APIResult.apiErr (lastRetryClassify (outs (a + n))) ∧
      dispatchCount (retryLoop cfg outs a (n+1) le).2 = n + 1 := by
  intro n
  induction n with
  | zero =>
    intro a le hall
    have ha := hall a (Nat.le_refl a) (by omega)
    cases houts : outs a with
    | netError m =>
      rw [retryLoop_netErr cfg outs a 0 le m houts]
      constructor
      · rw [retryLoop_zero]
        simp [lastRetryClassify, houts]
      · by_cases hb : a < cfg.MaxRetries - 1
        · rw [if_pos hb, retryLoop_zero]
          simp [dispatchCount_cons_dispatch, dispatchCount_cons_sleepB, dispatchCount_nil]
        · rw [if_neg hb, retryLoop_zero]
          simp [dispatchCount_cons_dispatch, dispatchCount_nil]
    | response s b =>
      rw [houts] at ha
      have hs : s = 429 := by simpa [retryableOutcome] using ha
      subst hs
      rw [retryLoop_429 cfg outs a 0 le b houts]
      constructor
      · rw [retryLoop_zero]
        simp [lastRetryClassify, houts]
      · rw [retryLoop_zero]
        simp [dispatchCount_cons_dispatch, dispatchCount_cons_sleepRL, dispatchCount_nil]
  | succ k ih =>
    intro a le hall
    have ha := hall a (Nat.le_refl a) (by omega)
    have hix : a + 1 + k = a + (k + 1) := by omega
    cases houts : outs a with
    | netError m =>
      obtain ⟨ih1, ih2⟩ := ih (a+1) (some (networkAPIError m))
        (fun i h1 h2 => hall i (by omega) (by omega))
      rw [retryLoop_netErr cfg outs a (k+1) le m houts]
      constructor
      · rw [ih1, hix]
      · by_cases hb : a < cfg.MaxRetries - 1
        · rw [if_pos hb]
          simp only [dispatchCount_cons_dispatch, dispatchCount_cons_sleepB]
          omega
        · rw [if_neg hb]
          simp only [dispatchCount_cons_dispatch]
          omega
    | response s b =>
      rw [houts] at ha
      have hs : s = 429 := by simpa [retryableOutcome] using ha
      subst hs
      obtain ⟨ih1, ih2⟩ := ih (a+1) (some (rateLimitAPIError b))
        (fun i h1 h2 => hall i (by omega) (by omega))
      rw [retryLoop_429 cfg outs a (k+1) le b houts]
      constructor
      · rw [ih1, hix]
      · simp only [dispatchCount_cons_dispatch, dispatchCount_cons_sleepRL]
        omega

/-- C2: a dispatch whose response is HTTP 401 or 403 makes
`makeAPIRequest` return at once with `IsInvalidKey` set: when the first
attempt gets such a status the whole run consists of that single dispatch
with no sleep, backoff or re-dispatch; and in any run whatsoever, an
attempt `i+1` is only ever dispatched when attempt `i` ended in a
network-level failure or an HTTP 429. -/
theorem c2_no_retry_on_auth (cfg : GoConfig) (outs : Nat → HTTPOutcome)
    (s : Nat) (b : String) (hmr : 1 ≤ cfg.MaxRetries)
    (hs : s = 401 ∨ s = 403) (h0 : outs 0 = HTTPOutcome.response s b) :
    (∃ e : APIError,
        makeAPIRequest cfg outs = (APIResult.apiErr e, [APIEvent.dispatch 0]) ∧
        e.IsInvalidKey = true ∧ e.IsRateLimit = false ∧
        e.IsNetworkError = false ∧ e.StatusCode = s) ∧
    (∀ (outs' : Nat → HTTPOutcome) (i : Nat),
        APIEvent.dispatch (i+1) ∈ (makeAPIRequest cfg outs').2 →
        retryableOutcome (outs' i) = true) := by
  obtain ⟨n, hn⟩ : ∃ n, cfg.MaxRetries = n + 1 := ⟨cfg.MaxRetries - 1, by omega⟩
  constructor
  · unfold makeAPIRequest
    rw [hn]
    rcases hs with hs | hs
    · subst hs
      rw [retryLoop_401 cfg outs 0 n none b h0]
      exact ⟨_, rfl, rfl, rfl, rfl, rfl⟩
    · subst hs
      rw [retryLoop_403 cfg outs 0 n none b h0]
      exact ⟨_, rfl, rfl, rfl, rfl, rfl⟩
  · intro outs' i h
    obtain ⟨h1, h2⟩ :=
      retryLoop_dispatch_bound cfg outs' cfg.MaxRetries 0 none (i+1) h
    exact h2 i (Nat.zero_le i) (by omega)

/-- Witness for C2: a provider that always answers 401. -/
theorem c2_no_retry_on_auth_witness :
    (1 ≤ (GoConfig.mk "key" "ep" 7 3).MaxRetries) ∧
    (∃ e : APIError,
        makeAPIRequest (GoConfig.mk "key" "ep" 7 3)
            (fun _ => HTTPOutcome.response 401 "denied") =
          (APIResult.apiErr e, [APIEvent.dispatch 0]) ∧
        e.IsInvalidKey = true ∧ e.IsRateLimit = false ∧
        e.IsNetworkError = false ∧ e.StatusCode = 401) :=
  ⟨by decide,
    (c2_no_retry_on_auth (GoConfig.mk "key" "ep" 7 3)
      (fun _ => HTTPOutcome.response 401 "denied") 401 "denied"
      (by decide) (Or.inl rfl) rfl).1⟩

/-- C3: when every one of the `MaxRetries` attempts fails with a
retryable outcome (network failure or HTTP 429), the loop stops after
exactly `MaxRetries` dispatches and returns the classification of the
last outcome (the terminal form of an error that was retryable all
along); and no run of `makeAPIRequest` ever dispatches more than
`MaxRetries` attempts. -/
theorem c3_retry_exhaustion (cfg : GoConfig) (outs : Nat → HTTPOutcome)
    (hmr : 1 ≤ cfg.MaxRetries)
    (hall : ∀ i, i < cfg.MaxRetries → retryableOutcome (outs i) = true) :
    (makeAPIRequest cfg outs).1 =
      APIResult.apiErr (lastRetryClassify (outs (cfg.MaxRetries - 1))) ∧
    dispatchCount (makeAPIRequest cfg outs).2 = cfg.MaxRetries ∧
    (∀ outs' : Nat → HTTPOutcome,
        dispatchCount (makeAPIRequest cfg outs').2 ≤ cfg.MaxRetries) := by
  obtain ⟨n, hn⟩ : ∃ n, cfg.MaxRetries = n + 1 := ⟨cfg.MaxRetries - 1, by omega⟩
  obtain ⟨h1, h2⟩ := retryLoop_allRetryable cfg outs n 0 none
    (fun i hi1 hi2 => hall i (by omega))
  refine ⟨?_, ?_, ?_⟩
  · unfold makeAPIRequest
    rw [hn, h1]
    have h3 : (0 : Nat) + n = n + 1 - 1 := by omega
    rw [h3]
  · unfold makeAPIRequest
    rw [hn, h2]
  · intro outs'
    unfold makeAPIRequest
    exact retryLoop_dispatchCount_le cfg outs' cfg.MaxRetries 0 none

/-- Witness for C3: two attempts, both network failures. -/
theorem c3_retry_exhaustion_witness :
    (1 ≤ (GoConfig.mk "key" "ep" 7 2).MaxRetries) ∧
    (makeAPIRequest (GoConfig.mk "key" "ep" 7 2)
        (fun _ => HTTPOutcome.netError "timeout")).1 =
      APIResult.apiErr (lastRetryClassify (HTTPOutcome.netError "timeout")) ∧
    dispatchCount (makeAPIRequest (GoConfig.mk "key" "ep" 7 2)
        (fun _ => HTTPOutcome.netError "timeout")).2 = 2 :=
  ⟨by decide,
    (c3_retry_exhaustion (GoConfig.mk "key" "ep" 7 2)
        (fun _ => HTTPOutcome.netError "timeout") (by decide)
        (fun i _ => rfl)).1,
    (c3_retry_exhaustion (GoConfig.mk "key" "ep" 7 2)
        (fun _ => HTTPOutcome.netError "timeout") (by decide)
        (fun i _ => rfl)).2.1⟩

/-- C6: an attempt answered with HTTP 429 is classified rate-limited and
retryable (`lastErr` becomes the `IsRateLimit` error), and the loop
`continue`s after sleeping `(attempt+1) * APIRateLimit`: the trace between
this dispatch and the remainder of the run is exactly that single elevated
sleep, with no exponential-backoff sleep for this transition. -/
theorem c6_rate_limit_elevated_wait (cfg : GoConfig) (outs : Nat → HTTPOutcome)
    (a fuel : Nat) (le : Option APIError) (b : String)
    (h : outs a = HTTPOutcome.response 429 b) :
    retryLoop cfg outs a (fuel+1) le =
      ((retryLoop cfg outs (a+1) fuel (some (rateLimitAPIError b))).1,
        APIEvent.dispatch a ::
          APIEvent.sleepRateLimit (((a : Int) + 1) * cfg.APIRateLimit) ::
          (retryLoop cfg outs (a+1) fuel (some (rateLimitAPIError b))).2) ∧
    (rateLimitAPIError b).IsRateLimit = true ∧
    retryableOutcome (outs a) = true := by
  refine ⟨retryLoop_429 cfg outs a fuel le b h, rfl, ?_⟩
  rw [h]
  rfl

/-- Witness for C6 at attempt 0 with interval 7. -/
theorem c6_rate_limit_elevated_wait_witness :
    retryLoop (GoConfig.mk "key" "ep" 7 2)
        (fun _ => HTTPOutcome.response 429 "slow down") 0 2 none =
      ((retryLoop (GoConfig.mk "key" "ep" 7 2)
          (fun _ => HTTPOutcome.response 429 "slow down") 1 1
          (some (rateLimitAPIError "slow down"))).1,
        APIEvent.dispatch 0 ::
          APIEvent.sleepRateLimit (((0 : Int) + 1) * 7) ::
          (retryLoop (GoConfig.mk "key" "ep" 7 2)
            (fun _ => HTTPOutcome.response 429 "slow down") 1 1
            (some (rateLimitAPIError "slow down"))).2) ∧
    (rateLimitAPIError "slow down").IsRateLimit = true :=
  ⟨((c6_rate_limit_elevated_wait (GoConfig.mk "key" "ep" 7 2)
      (fun _ => HTTPOutcome.response 429 "slow down") 0 1 none "slow down" rfl).1),
    rfl⟩

/-- C7: an attempt that fails at the network level records the
`IsNetworkError` classification, and when a further attempt remains
(`attempt < MaxRetries - 1`) the loop waits exactly `2^attempt` seconds
before the next attempt (exponential backoff indexed from zero). -/
theorem c7_exponential_backoff (cfg : GoConfig) (outs : Nat → HTTPOutcome)
    (a fuel : Nat) (le : Option APIError) (m : String)
    (h : outs a = HTTPOutcome.netError m) (hnext : a < cfg.MaxRetries - 1) :
    retryLoop cfg outs a (fuel+1) le =
      ((retryLoop cfg outs (a+1) fuel (some (networkAPIError m))).1,
        APIEvent.dispatch a ::
          APIEvent.sleepBackoff ((2 : Int) ^ a) ::
          (retryLoop cfg outs (a+1) fuel (some (networkAPIError m))).2) ∧
    (networkAPIError m).IsNetworkError = true := by
  rw [retryLoop_netErr cfg outs a fuel le m h]
  rw [if_pos hnext]
  exact ⟨rfl, rfl⟩

/-- Witness for C7 at attempt 0 of a three-attempt budget. -/
theorem c7_exponential_backoff_witness :
    (0 < (GoConfig.mk "key" "ep" 7 3).MaxRetries - 1) ∧
    retryLoop (GoConfig.mk "key" "ep" 7 3)
        (fun _ => HTTPOutcome.netError "refused") 0 3 none =
      ((retryLoop (GoConfig.mk "key" "ep" 7 3)
          (fun _ => HTTPOutcome.netError "refused") 1 2
          (some (networkAPIError "refused"))).1,
        APIEvent.dispatch 0 ::
          APIEvent.sleepBackoff ((2 : Int) ^ 0) ::
          (retryLoop (GoConfig.mk "key" "ep" 7 3)
            (fun _ => HTTPOutcome.netError "refused") 1 2
            (some (networkAPIError "refused"))).2) :=
  ⟨by decide,
    (c7_exponential_backoff (GoConfig.mk "key" "ep" 7 3)
      (fun _ => HTTPOutcome.netError "refused") 0 2 none "refused" rfl
      (by decide)).1⟩

/-! ### Pipeline lemmas -/

theorem updateStep_processedFiles (m : TuiModel) (msg : PMsg) :
    (updateStep m msg).processedFiles = m.processedFiles + 1 := by
  cases msg <;> simp only [updateStep] <;> split <;> rfl

theorem updateStep_files (m : TuiModel) (msg : PMsg) :
    (updateStep m msg).files = m.files := by
  cases msg <;> simp only [updateStep] <;> split <;> rfl

theorem updateStep_errors_processed (m : TuiModel) (s : String) :
    (updateStep m (PMsg.fileProcessed s)).errors = m.errors := by
  simp only [updateStep]
  split <;> rfl

theorem runMsgs_processedFiles (msgs : List PMsg) :
    ∀ m : TuiModel, (runMsgs m msgs).processedFiles = m.processedFiles + msgs.length := by
  induction msgs with
  | nil => intro m; rfl
  | cons msg rest ih =>
    intro m
    show (runMsgs (updateStep m msg) rest).processedFiles = _
    rw [ih, updateStep_processedFiles]
    simp [Nat.add_assoc, Nat.add_comm 1 rest.length]

theorem runMsgs_files (msgs : List PMsg) :
    ∀ m : TuiModel, (runMsgs m msgs).files = m.files := by
  induction msgs with
  | nil => intro m; rfl
  | cons msg rest ih =>
    intro m
    show (runMsgs (updateStep m msg) rest).files = _
    rw [ih, updateStep_files]

/-- The final step of a run whose message count exactly fills the file
list puts the model into the terminal `StateDone`. -/
theorem runMsgs_done (msgs : List PMsg) :
    ∀ m : TuiModel, msgs ≠ [] → m.files.length = m.processedFiles + msgs.length →
      (runMsgs m msgs).state = TuiState.done := by
  induction msgs with
  | nil => intro m h; exact absurd rfl h
  | cons msg rest ih =>
    intro m _ hlen
    cases rest with
    | nil =>
      show (updateStep m msg).state = TuiState.done
      have h1 : m.files.length = m.processedFiles + 1 := by
        simpa using hlen
      cases msg <;> simp only [updateStep] <;> rw [if_pos (by omega)]
    | cons msg2 rest2 =>
      show (runMsgs (updateStep m msg) (msg2 :: rest2)).state = TuiState.done
      refine ih (updateStep m msg) (by simp) ?_
      rw [updateStep_files, updateStep_processedFiles]
      simp at hlen ⊢
      omega

/-- C4: every processing step — a `fileProcessedMsg` (success or skip) or
a `fileErrorMsg` — increments `processedFiles` by exactly one, so over a
run on a file list of length `totalCount` the counter is non-decreasing
(equal to the number of steps taken), reaches `totalCount` after exactly
`totalCount` steps regardless of per-file outcome, and at that point (for
a non-empty list, so that a final step exists) `Update` enters
`StateDone`. -/
theorem c4_monotonic_progress (m0 : TuiModel) (msgs : List PMsg)
    (hp : m0.processedFiles = 0) (hn : msgs.length = m0.files.length) :
    (∀ (m : TuiModel) (msg : PMsg),
        (updateStep m msg).processedFiles = m.processedFiles + 1) ∧
    (∀ k, k ≤ msgs.length → (runMsgs m0 (msgs.take k)).processedFiles = k) ∧
    (runMsgs m0 msgs).processedFiles = m0.files.length ∧
    (0 < m0.files.length → (runMsgs m0 msgs).state = TuiState.done) := by
  refine ⟨updateStep_processedFiles, ?_, ?_, ?_⟩
  · intro k hk
    rw [runMsgs_processedFiles, hp, List.length_take]
    omega
  · rw [runMsgs_processedFiles, hp, hn]
    omega
  · intro hpos
    refine runMsgs_done msgs m0 ?_ (by omega)
    intro hnil
    rw [hnil] at hn
    simp at hn
    omega

/-- Witness for C4: a single file processed in one step. -/
theorem c4_monotonic_progress_witness :
    (TuiModel.mk [FileInfo.mk "a.go" "package main" 12 false] 0 [] "" TuiState.processing).processedFiles = 0 ∧
    (runMsgs (TuiModel.mk [FileInfo.mk "a.go" "package main" 12 false] 0 [] "" TuiState.processing)
        [PMsg.fileProcessed "a.go"]).processedFiles = 1 ∧
    (runMsgs (TuiModel.mk [FileInfo.mk "a.go" "package main" 12 false] 0 [] "" TuiState.processing)
        [PMsg.fileProcessed "a.go"]).state = TuiState.done :=
  ⟨rfl,
    (c4_monotonic_progress
      (TuiModel.mk [FileInfo.mk "a.go" "package main" 12 false] 0 [] "" TuiState.processing)
      [PMsg.fileProcessed "a.go"] rfl rfl).2.2.1,
    (c4_monotonic_progress
      (TuiModel.mk [FileInfo.mk "a.go" "package main" 12 false] 0 [] "" TuiState.processing)
      [PMsg.fileProcessed "a.go"] rfl rfl).2.2.2 (by decide)⟩

/-- The destination path `continueProcessing` computes for file `f` once
`filepath.Rel` returned `r`:
`Join(Join(outputDir, Dir(r)), Base(f.Path) + ".md")`. -/
def destFile (env : StepEnv) (f : FileInfo) (r : String) : String :=
  env.join (env.join env.outputDir (env.dirOf r)) (env.baseOf f.Path ++ ".md")

/-- The scanning loop reaches exactly the file at the cursor index when
that entry is not a directory: earlier indices are skipped by the
`i < processedFiles` guard regardless of their content. -/
theorem procLoop_at (env : StepEnv) :
    ∀ (files : List FileInfo) (i p : Nat) (f : FileInfo),
      files.get? p = some f → f.IsDir = false →
      procLoop env files i (i + p) = some (stepOn env f) := by
  intro files
  induction files with
  | nil => intro i p f h; simp at h
  | cons f0 rest ih =>
    intro i p f h hd
    cases p with
    | zero =>
      rw [List.get?_cons_zero] at h
      have hf := Option.some.inj h
      subst hf
      simp [procLoop, hd]
    | succ q =>
      rw [List.get?_cons_succ] at h
      rw [procLoop]
      rw [if_pos (by omega)]
      have := ih (i+1) q f h hd
      have hidx : i + (q + 1) = (i + 1) + q := by omega
      rw [hidx]
      exact this

/-- The dedupe branch of `continueProcessing`: when the destination
artifact already exists, the step ends in a skip `fileProcessedMsg`,
performs no `GenerateDocumentation` call and writes nothing. -/
theorem stepOn_skip (env : StepEnv) (f : FileInfo) (r : String)
    (hrel : env.rel f.Path = Except.ok r)
    (hmk : env.mkdirAll (env.join env.outputDir (env.dirOf r)) = none)
    (hex : env.statExists (destFile env f r) = true) :
    stepOn env f =
      (PMsg.fileProcessed (f.Path ++ " (already documented, skipped)"), 0, none) := by
  unfold destFile at hex
  simp [stepOn, hrel, hmk, hex]

/-- A file the pipeline will skip: not a directory, its relative path and
output directory resolve, and its destination artifact already exists. -/
def skipReady (env : StepEnv) (f : FileInfo) : Prop :=
  f.IsDir = false ∧ ∃ r, env.rel f.Path = Except.ok r ∧
    env.mkdirAll (env.join env.outputDir (env.dirOf r)) = none ∧
    env.statExists (destFile env f r) = true

/-- A full pass over a file list in which every destination already
exists: zero `GenerateDocumentation` calls, no error recorded, and the
cursor reaches the end. -/
theorem runSteps_all_skipped (env : StepEnv) (files : List FileInfo)
    (hall : ∀ f ∈ files, skipReady env f) :
    ∀ (k : Nat) (m : TuiModel), m.files = files → m.processedFiles + k = files.length →
      (runSteps env k m).2 = 0 ∧ (runSteps env k m).1.errors = m.errors ∧
      (runSteps env k m).1.processedFiles = files.length := by
  intro k
  induction k with
  | zero =>
    intro m hf hp
    exact ⟨rfl, rfl, by simpa using hp⟩
  | succ j ih =>
    intro m hf hp
    have hlt : m.processedFiles < files.length := by omega
    obtain ⟨f, hget⟩ : ∃ f, files.get? m.processedFiles = some f :=
      ⟨files.get ⟨m.processedFiles, hlt⟩, List.get?_eq_get hlt⟩
    have hmem : f ∈ files := List.get?_mem hget
    obtain ⟨hdir, r, hrel, hmk, hex⟩ := hall f hmem
    have hstep : continueProcessingStep env m = some (stepOn env f) := by
      unfold continueProcessingStep
      rw [hf]
      have := procLoop_at env files 0 m.processedFiles f hget hdir
      simpa using this
    have hskip := stepOn_skip env f r hrel hmk hex
    have hfiles' : (updateStep m (PMsg.fileProcessed (f.Path ++ " (already documented, skipped)"))).files = files := by
      rw [updateStep_files, hf]
    have hproc' : (updateStep m (PMsg.fileProcessed (f.Path ++ " (already documented, skipped)"))).processedFiles + j = files.length := by
      rw [updateStep_processedFiles]
      omega
    obtain ⟨ha, hb, hc⟩ := ih _ hfiles' hproc'
    refine ⟨?_, ?_, ?_⟩
    · simp only [runSteps, hstep, hskip, noteWrite]
      simpa using ha
    · simp only [runSteps, hstep, hskip, noteWrite]
      rw [hb, updateStep_errors_processed]
    · simp only [runSteps, hstep, hskip, noteWrite]
      exact hc

/-- C5: when a file's computed destination path already exists, the
pipeline step emits the skip outcome, makes zero `GenerateDocumentation`
(network) calls and records no error; consequently a run over a file list
whose destinations all pre-exist (a second run over the same input and
output roots) performs zero network calls and leaves the error list
unchanged, whatever the provider would answer. -/
theorem c5_dedupe_skip (env : StepEnv) (files : List FileInfo)
    (hall : ∀ f ∈ files, skipReady env f) :
    (∀ (f : FileInfo) (r : String),
        env.rel f.Path = Except.ok r →
        env.mkdirAll (env.join env.outputDir (env.dirOf r)) = none →
        env.statExists (destFile env f r) = true →
        stepOn env f =
          (PMsg.fileProcessed (f.Path ++ " (already documented, skipped)"), 0, none)) ∧
    (∀ m0 : TuiModel, m0.files = files → m0.processedFiles = 0 →
        (runSteps env files.length m0).2 = 0 ∧
        (runSteps env files.length m0).1.errors = m0.errors ∧
        (runSteps env files.length m0).1.processedFiles = files.length) := by
  refine ⟨fun f r => stepOn_skip env f r, ?_⟩
  intro m0 hf hp
  exact runSteps_all_skipped env files hall files.length m0 hf (by omega)

/-- Concrete environment for the C5 witness: every destination already
exists and the provider fails every request. -/
def skipEnvW : StepEnv :=
  { outputDir := "out"
    rel := fun p => Except.ok p
    dirOf := fun _ => "."
    baseOf := fun p => p
    join := fun a b => a ++ "/" ++ b
    mkdirAll := fun _ => none
    statExists := fun _ => true
    generateDoc := fun _ => Except.error "provider unavailable"
    writeFile := fun _ _ => none }

def skipFilesW : List FileInfo :=
  [FileInfo.mk "a.go" "package main" 12 false, FileInfo.mk "b.txt" "hello" 5 false]

def skipModelW : TuiModel := TuiModel.mk skipFilesW 0 [] "" TuiState.processing

/-- Witness for C5: a second run over two already-documented files makes
zero network calls and records no error. -/
theorem c5_dedupe_skip_witness :
    (runSteps skipEnvW skipFilesW.length skipModelW).2 = 0 ∧
    (runSteps skipEnvW skipFilesW.length skipModelW).1.errors = [] ∧
    (runSteps skipEnvW skipFilesW.length skipModelW).1.processedFiles = skipFilesW.length := by
  have hall : ∀ f ∈ skipFilesW, skipReady skipEnvW f := by
    intro f hf
    rcases List.mem_cons.mp hf with h | h
    · subst h
      exact ⟨rfl, "a.go", rfl, rfl, rfl⟩
    · rcases List.mem_cons.mp h with h2 | h2
      · subst h2
        exact ⟨rfl, "b.txt", rfl, rfl, rfl⟩
      · simp at h2
  exact (c5_dedupe_skip skipEnvW skipFilesW hall).2 skipModelW rfl rfl

/-- C8: `GenerateDocumentation` with an empty configured API key fails at
once with the credential guard error ("DeepSeek API key is not set", the
InvalidCredential classification of the spec) and performs zero
dispatches: `makeAPIRequest` is never consulted. -/
theorem c8_empty_key_guard (cfg : GoConfig)
    (unmarshal : String → Except String DeepseekResponse)
    (outs : Nat → HTTPOutcome) (file : FileInfo)
    (hk : cfg.DeepseekAPIKey = "") :
    GenerateDocumentation cfg unmarshal outs file =
      (Except.error GenError.keyNotSet, 0) := by
  simp [GenerateDocumentation, hk]

/-- Witness for C8 with an empty key and a provider that would succeed. -/
theorem c8_empty_key_guard_witness :
    GenerateDocumentation (GoConfig.mk "" "ep" 7 3)
        (fun _ => Except.error "unused")
        (fun _ => HTTPOutcome.response 200 "body")
        (FileInfo.mk "a.go" "package main" 12 false) =
      (Except.error GenError.keyNotSet, 0) :=
  c8_empty_key_guard (GoConfig.mk "" "ep" 7 3)
    (fun _ => Except.error "unused")
    (fun _ => HTTPOutcome.response 200 "body")
    (FileInfo.mk "a.go" "package main" 12 false) rfl

/-- C9: for an accepted (HTTP 200) response, `GenerateDocumentation`
fails with the parse error ("failed to parse API response", the
ProtocolFailure classification) when the body does not decode, fails with
the "API response contains no choices" error (ProtocolFailure) when the
decoded response has zero choices, and succeeds exactly when at least one
choice is present, returning the first choice's message content. -/
theorem c9_response_decoding (cfg : GoConfig)
    (unmarshal : String → Except String DeepseekResponse)
    (outs : Nat → HTTPOutcome) (file : FileInfo) (body : String)
    (hk : cfg.DeepseekAPIKey ≠ "")
    (hok : (makeAPIRequest cfg outs).1 = APIResult.ok body) :
    (∀ m, unmarshal body = Except.error m →
        GenerateDocumentation cfg unmarshal outs file =
          (Except.error (GenError.parseFailure m),
            dispatchCount (makeAPIRequest cfg outs).2)) ∧
    (∀ resp, unmarshal body = Except.ok resp → resp.Choices = [] →
        GenerateDocumentation cfg unmarshal outs file =
          (Except.error GenError.noChoices,
            dispatchCount (makeAPIRequest cfg outs).2)) ∧
    (∀ resp c cs, unmarshal body = Except.ok resp → resp.Choices = c :: cs →
        GenerateDocumentation cfg unmarshal outs file =
          (Except.ok c.Message.Content,
            dispatchCount (makeAPIRequest cfg outs).2)) := by
  refine ⟨?_, ?_, ?_⟩
  · intro m hu
    simp [GenerateDocumentation, hk, hok, hu]
  · intro resp hu hc
    simp [GenerateDocumentation, hk, hok, hu, hc]
  · intro resp c cs hu hc
    simp [GenerateDocumentation, hk, hok, hu, hc]

/-- Witness for C9: a 200 response whose body decodes to one choice. -/
theorem c9_response_decoding_witness :
    ((GoConfig.mk "key" "ep" 7 1).DeepseekAPIKey ≠ "") ∧
    (makeAPIRequest (GoConfig.mk "key" "ep" 7 1)
        (fun _ => HTTPOutcome.response 200 "raw")).1 = APIResult.ok "raw" ∧
    GenerateDocumentation (GoConfig.mk "key" "ep" 7 1)
        (fun _ => Except.ok
          (DeepseekResponse.mk "id" "chat.completion" 0 "deepseek-chat"
            [DSChoice.mk 0 (DSMessage.mk "assistant" "DOC")]))
        (fun _ => HTTPOutcome.response 200 "raw")
        (FileInfo.mk "a.go" "package main" 12 false) =
      (Except.ok "DOC",
        dispatchCount (makeAPIRequest (GoConfig.mk "key" "ep" 7 1)
          (fun _ => HTTPOutcome.response 200 "raw")).2) := by
  refine ⟨by decide, by rfl, ?_⟩
  exact (c9_response_decoding (GoConfig.mk "key" "ep" 7 1)
      (fun _ => Except.ok
        (DeepseekResponse.mk "id" "chat.completion" 0 "deepseek-chat"
          [DSChoice.mk 0 (DSMessage.mk "assistant" "DOC")]))
      (fun _ => HTTPOutcome.response 200 "raw")
      (FileInfo.mk "a.go" "package main" 12 false) "raw"
      (by decide) (by rfl)).2.2
    (DeepseekResponse.mk "id" "chat.completion" 0 "deepseek-chat"
      [DSChoice.mk 0 (DSMessage.mk "assistant" "DOC")])
    (DSChoice.mk 0 (DSMessage.mk "assistant" "DOC")) [] rfl rfl

mutual

/-- Every record emitted while visiting a node has `IsDir = false`. -/
theorem walkVisit_nondir (ig : String → Bool) (node : FSNode) (p : String) :
    ∀ fi ∈ walkVisit ig node p, fi.IsDir = false := by
  cases node with
  | file n size readOk content =>
    intro fi h
    rw [walkVisit] at h
    split at h
    · simp at h
    · rw [List.mem_singleton] at h
      subst h
      rfl
  | dir n children =>
    intro fi h
    rw [walkVisit] at h
    split at h
    · simp at h
    · exact walkChildren_nondir ig children (p) fi h

/-- Every record emitted while visiting a child list has `IsDir = false`. -/
theorem walkChildren_nondir (ig : String → Bool) (cs : List FSNode) (dp : String) :
    ∀ fi ∈ walkChildren ig cs dp, fi.IsDir = false := by
  cases cs with
  | nil => intro fi h; rw [walkChildren] at h; simp at h
  | cons c rest =>
    intro fi h
    rw [walkChildren] at h
    rcases List.mem_append.mp h with h2 | h2
    · exact walkVisit_nondir ig c (dp ++ "/" ++ nodeName c) fi h2
    · exact walkChildren_nondir ig rest dp fi h2

end

/-- On a list without directory records, the scanning loop coincides with
the loop whose directory branch has been removed. -/
theorem procLoop_eq_noDir (env : StepEnv) :
    ∀ files : List FileInfo, (∀ f ∈ files, f.IsDir = false) →
      ∀ i lp, procLoop env files i lp = procLoopDirBranchRemoved env files i lp := by
  intro files
  induction files with
  | nil => intro _ i lp; rfl
  | cons f rest ih =>
    intro hall i lp
    have hf : f.IsDir = false := hall f (List.mem_cons_self f rest)
    rw [procLoop, procLoopDirBranchRemoved]
    by_cases hi : i < lp
    · rw [if_pos hi, if_pos hi]
      exact ih (fun g hg => hall g (List.mem_cons_of_mem f hg)) (i+1) lp
    · rw [if_neg hi, if_neg hi, hf]
      simp

/-- C10: every `FileInfo` produced by `TraverseDirectory` has
`IsDir = false` (directories are skipped before being appended), and
consequently on such lists the `continueProcessing` scanning loop behaves
exactly as if its directory-marker branch were removed: that branch is
unreachable. -/
theorem c10_traverse_no_dirs (ig : String → Bool) (rootDir : String) (root : FSNode) :
    (∀ fi ∈ TraverseDirectory ig rootDir root, fi.IsDir = false) ∧
    (∀ (env : StepEnv) (i lp : Nat),
        procLoop env (TraverseDirectory ig rootDir root) i lp =
          procLoopDirBranchRemoved env (TraverseDirectory ig rootDir root) i lp) := by
  have h : ∀ fi ∈ TraverseDirectory ig rootDir root, fi.IsDir = false :=
    walkVisit_nondir ig root rootDir
  exact ⟨h, fun env i lp => procLoop_eq_noDir env _ h i lp⟩

/-- Witness for C10: a concrete one-file tree. -/
theorem c10_traverse_no_dirs_witness :
    TraverseDirectory (fun _ => false) "r"
        (FSNode.dir "r" [FSNode.file "a" 1 true "x"]) =
      [FileInfo.mk "r/a" "x" 1 false] ∧
    (FileInfo.mk "r/a" "x" 1 false).IsDir = false := by
  refine ⟨by rfl, ?_⟩
  exact (c10_traverse_no_dirs (fun _ => false) "r"
      (FSNode.dir "r" [FSNode.file "a" 1 true "x"])).1
    (FileInfo.mk "r/a" "x" 1 false) (by rw [show TraverseDirectory (fun _ => false) "r"
      (FSNode.dir "r" [FSNode.file "a" 1 true "x"]) =
      [FileInfo.mk "r/a" "x" 1 false] from rfl]; exact List.mem_singleton.mpr rfl)

end Structura
